import Mathlib

/-!
Verification development for the v-sheet persistence server (src/server/app.py).

The server stores one JSON document per spreadsheet in a directory, plus a
singleton pointer file (metadata.json) recording the most recently accessed
document id.  We shallowly embed the Python code: the filesystem is an
association list from filenames (without the ".json" suffix) to file contents,
a file content either parses to a JSON value or is invalid, and every route
handler is a pure function from its request inputs and the server state to an
HTTP response and a new state.  Python exceptions are modelled with
`Except String`; a route's generic `except Exception` handler turns an error
into a 500 response.  Nondeterministic inputs of the environment (uuid4, the
current UTC time rendered as an ISO string) are passed as explicit arguments.
-/

namespace VSheet

/-- JSON values as produced by Python's json.load: None, bool, numbers,
strings, lists and dicts (dicts keep insertion order; since they come from
json.load their key lists hold no duplicates).  Numbers are modelled as
integers; the repository writes only integers (94, 20) and strings. -/
inductive Json where
  | null : Json
  | bool (b : Bool) : Json
  | num (n : Int) : Json
  | str (s : String) : Json
  | arr (elems : List Json) : Json
  | obj (fields : List (String × Json)) : Json

/-- Contents of one file on disk: either text that parses as JSON, or text
json.load rejects (raising json.JSONDecodeError). -/
inductive FileContent where
  | json (j : Json) : FileContent
  | invalid : FileContent

/-- The files directory: filename stem to content (in directory scan order). -/
abbrev FsDir := List (String × FileContent)

/-- The whole persistent state: the FILES_DIR directory and the optional
METADATA_FILE (none when the pointer file does not exist). -/
structure ServerState where
  files : FsDir
  metadata : Option FileContent

/-- First-match association-list lookup (Python dict access / file existence). -/
def getEntry {α : Type} : List (String × α) → String → Option α
  | [], _ => none
  | (k', v) :: t, k => if k' = k then some v else getEntry t k

/-- Python dict assignment d[k] = v (and writing a file): replace the value at
an existing key in place, otherwise append at the end (insertion order). -/
def setEntry {α : Type} : List (String × α) → String → α → List (String × α)
  | [], k, v => [(k, v)]
  | (k', v') :: t, k, v => if k' = k then (k, v) :: t else (k', v') :: setEntry t k v

/-- file_path.unlink(): remove the named file. -/
def removeFile (d : FsDir) (k : String) : FsDir :=
  d.filter (fun p => p.1 ≠ k)

/-- Python `<` on two strings: lexicographic comparison of code points. -/
def charListLt : List Char → List Char → Bool
  | [], [] => false
  | [], _ :: _ => true
  | _ :: _, [] => false
  | c :: cs, d :: ds =>
    if c.toNat < d.toNat then true
    else if d.toNat < c.toNat then false
    else charListLt cs ds

/-- Python s1 < s2 on strings. -/
def strLt (a b : String) : Bool := charListLt a.data b.data

/-- Python s1 <= s2 on strings (total order: a <= b iff not b < a). -/
def strLe (a b : String) : Bool := !(strLt b a)

/-- Python truthiness (`if x:`) of a JSON value. -/
def pyTruthy : Json → Bool
  | .null => false
  | .bool b => b
  | .num n => n != 0
  | .str s => s != ""
  | .arr l => !l.isEmpty
  | .obj kvs => !kvs.isEmpty

/-- Python `x == s` where s is a string: only equal strings compare equal;
values of any other type are simply unequal (no exception). -/
def pyEqStr (j : Json) (s : String) : Bool :=
  match j with
  | .str t => t == s
  | _ => false

/-- A single apostrophe, as used by Python repr of strings. -/
def pyQuote : String := String.singleton (Char.ofNat 39)

mutual

/-- Python repr of a JSON value (used by str() for non-string values).  The
escaping Python applies to special characters inside strings is not
reproduced; no theorem below depends on this rendering. -/
def pyRepr : Json → String
  | .null => "None"
  | .bool true => "True"
  | .bool false => "False"
  | .num n => toString n
  | .str s => pyQuote ++ s ++ pyQuote
  | .arr l => "[" ++ pyReprList l ++ "]"
  | .obj kvs => "\x7b" ++ pyReprObj kvs ++ "\x7d"

def pyReprList : List Json → String
  | [] => ""
  | [x] => pyRepr x
  | x :: y :: xs => pyRepr x ++ ", " ++ pyReprList (y :: xs)

def pyReprObj : List (String × Json) → String
  | [] => ""
  | [(k, v)] => pyQuote ++ k ++ pyQuote ++ ": " ++ pyRepr v
  | (k, v) :: y :: xs => pyQuote ++ k ++ pyQuote ++ ": " ++ pyRepr v ++ ", " ++ pyReprObj (y :: xs)

end

/-- Python str() of a JSON value, as interpolated into f-strings. -/
def pyStr : Json → String
  | .str s => s
  | j => pyRepr j

/-- Python `<` between two JSON values, as used by sorted().  Strings compare
lexicographically by code point, numbers numerically, and bools as 0/1
(Python bool is an int subtype); any other pairing raises TypeError.
(CPython also orders two lists elementwise; that case cannot be reached by
the states considered in the theorems below and is conservatively mapped to
the error case here.) -/
def pyLt : Json → Json → Except String Bool
  | .str a, .str b => .ok (strLt a b)
  | .num a, .num b => .ok (decide (a < b))
  | .bool a, .num b => .ok (decide ((if a then (1 : Int) else 0) < b))
  | .num a, .bool b => .ok (decide (a < (if b then (1 : Int) else 0)))
  | .bool a, .bool b => .ok (decide ((if a then (1 : Int) else 0) < (if b then (1 : Int) else 0)))
  | _, _ => .error "TypeError: unorderable types"

/-- Python `k in x` for a string k: dict key test, list membership test,
substring test on strings; anything else raises TypeError. -/
def pyContains (j : Json) (k : String) : Except String Bool :=
  match j with
  | .obj kvs => .ok (kvs.any (fun p => p.1 == k))
  | .arr l => .ok (l.any (fun x => pyEqStr x k))
  | .str s => .ok (decide ((s.splitOn k).length > 1))
  | _ => .error "TypeError: argument is not iterable"

/-- Python `x[k]` for a string key k: dict item access (KeyError when the key
is absent); any non-dict raises TypeError. -/
def pyGetItem (j : Json) (k : String) : Except String Json :=
  match j with
  | .obj kvs =>
    match getEntry kvs k with
    | some v => .ok v
    | none => .error "KeyError"
  | _ => .error "TypeError: value is not subscriptable"

/-- jsonify({'error': msg}). -/
def errBody (m : String) : Json := .obj [("error", .str m)]

/-- jsonify({'success': True}). -/
def successBody : Json := .obj [("success", .bool true)]

/-- One row of the get_all_files listing: the dict
\x7b'id': ..., 'name': ..., 'modified': ...\x7d built from a stored file. -/
structure ListEntry where
  id : Json
  name : Json
  modified : Json

/-- The listing row as the JSON dict appended to the files list. -/
def ListEntry.toJson (e : ListEntry) : Json :=
  .obj [("id", e.id), ("name", e.name), ("modified", e.modified)]

namespace FileManager

/-- Reading one file inside get_all_files: json.JSONDecodeError is caught and
the file skipped; a missing 'id'/'name'/'modified' key raises KeyError, also
caught and skipped; but a file whose JSON is not a dict raises TypeError at
file_data['id'], which the except clause does not catch. -/
def readListEntry : FileContent → Except String (Option ListEntry)
  | .invalid => .ok none
  | .json (.obj kvs) =>
    match getEntry kvs "id", getEntry kvs "name", getEntry kvs "modified" with
    | some i, some n, some m => .ok (some ⟨i, n, m⟩)
    | _, _, _ => .ok none
  | .json _ => .error "TypeError: value is not subscriptable"

/-- The files.append loop of get_all_files over the directory in scan order. -/
def collectEntries : FsDir → Except String (List ListEntry)
  | [] => .ok []
  | (_, c) :: rest =>
    match readListEntry c with
    | .error e => .error e
    | .ok none => collectEntries rest
    | .ok (some entry) =>
      match collectEntries rest with
      | .error e => .error e
      | .ok l => .ok (entry :: l)

/-- Insert one entry into an already descending list, after every entry whose
modified key is not smaller (the comparison may raise TypeError).  Together
with sortAux this is a stable descending sort, which agrees with Python's
sorted(..., key=lambda x: x['modified'], reverse=True) whenever the keys are
mutually comparable. -/
def insertDesc (e : ListEntry) : List ListEntry → Except String (List ListEntry)
  | [] => .ok [e]
  | h :: t =>
    match pyLt h.modified e.modified with
    | .error msg => .error msg
    | .ok true => .ok (e :: h :: t)
    | .ok false =>
      match insertDesc e t with
      | .error msg => .error msg
      | .ok t' => .ok (h :: t')

/-- Stable descending insertion sort over the collected entries. -/
def sortAux : List ListEntry → List ListEntry → Except String (List ListEntry)
  | acc, [] => .ok acc
  | acc, e :: rest =>
    match insertDesc e acc with
    | .error msg => .error msg
    | .ok acc' => sortAux acc' rest

/-- FileManager.get_all_files: list all spreadsheet files, skipping unreadable
entries, sorted by 'modified' descending. -/
def get_all_files (d : FsDir) : Except String (List ListEntry) :=
  match collectEntries d with
  | .error e => .error e
  | .ok l => sortAux [] l

/-- The default data payload of a new spreadsheet (app.py lines 51-59). -/
def defaultData : Json :=
  .obj [("cells", .obj []),
        ("columnWidths", .arr (List.replicate 26 (.num 94))),
        ("rowHeights", .arr (List.replicate 100 (.num 20))),
        ("metadata", .obj [("lastActiveCell", .str "A1"), ("selections", .arr [])])]

/-- The document dict written by FileManager.create_file: fresh id, name,
created = modified = the current timestamp, default data. -/
def newDocJson (name : Json) (fileId ts : String) : Json :=
  .obj [("id", .str fileId), ("name", name), ("created", .str ts),
        ("modified", .str ts), ("data", defaultData)]

/-- FileManager.create_file: builds the document, writes <id>.json, returns
the document.  The generated uuid and the utcnow timestamp are arguments. -/
def create_file (name : Json) (fileId ts : String) (d : FsDir) : Json × FsDir :=
  let fd := newDocJson name fileId ts
  (fd, setEntry d fileId (.json fd))

/-- The pointer dict written by FileManager.update_recent_file. -/
def mkMeta (fileId : Json) (now : String) : Json :=
  .obj [("recentFileId", fileId), ("lastAccessed", .str now)]

/-- FileManager.update_recent_file: overwrite METADATA_FILE wholesale. -/
def update_recent_file (fileId : Json) (now : String) : Option FileContent :=
  some (.json (mkMeta fileId now))

/-- FileManager.get_recent_file_id: None when the pointer file is missing or
unparseable (both swallowed), the stored recentFileId (None when the key is
absent) when it parses to a dict; a pointer file holding any other JSON value
raises AttributeError at metadata.get, which is not caught here. -/
def get_recent_file_id : Option FileContent → Except String Json
  | none => .ok .null
  | some .invalid => .ok .null
  | some (.json (.obj kvs)) => .ok ((getEntry kvs "recentFileId").getD .null)
  | some (.json _) => .error "AttributeError: value has no attribute get"

end FileManager

/-- An inbound HTTP request body: either text that parses as JSON (Python None
for a literal null body) or text Flask fails to parse. -/
inductive ReqBody where
  | valid (j : Json) : ReqBody
  | malformed : ReqBody

/-- An HTTP response: status code and JSON body. -/
structure HttpResponse where
  status : Nat
  body : Json

/-- GET /api/files. -/
def list_files (s : ServerState) : HttpResponse × ServerState :=
  match FileManager.get_all_files s.files with
  | .ok l => ({status := 200, body := .obj [("files", .arr (l.map ListEntry.toJson))]}, s)
  | .error e => ({status := 500, body := errBody e}, s)

/-- POST /api/files.  A malformed body makes request.json raise
werkzeug.exceptions.BadRequest, which the generic `except Exception` turns
into a 500; `request.json or \x7b\x7d` replaces any falsy body by an empty
dict; data.get on a truthy non-dict raises AttributeError, also a 500. -/
def create_file_route (body : ReqBody) (freshId now : String) (s : ServerState) :
    HttpResponse × ServerState :=
  match body with
  | .malformed => ({status := 500, body := errBody "400 Bad Request: failed to decode JSON"}, s)
  | .valid j =>
    let data := if pyTruthy j then j else .obj []
    match data with
    | .obj kvs =>
      let name := (getEntry kvs "name").getD (.str "Untitled Spreadsheet")
      let created := FileManager.create_file name freshId now s.files
      ({status := 201, body := created.1},
       ⟨created.2, FileManager.update_recent_file (.str freshId) now⟩)
    | _ => ({status := 500, body := errBody "AttributeError: value has no attribute get"}, s)

/-- GET /api/files/<file_id>. -/
def get_file (fileId now : String) (s : ServerState) : HttpResponse × ServerState :=
  match getEntry s.files fileId with
  | none => ({status := 404, body := errBody "File not found"}, s)
  | some .invalid => ({status := 500, body := errBody "Invalid file format"}, s)
  | some (.json fd) =>
    ({status := 200, body := fd}, ⟨s.files, FileManager.update_recent_file (.str fileId) now⟩)

/-- The three field updates of update_file (lines 150-156): set 'modified',
then overwrite 'name'/'data' if present in the request payload; the `in` and
item accesses can raise on non-dict payloads. -/
def applyUpdateFields (kvs : List (String × Json)) (j : Json) (now : String) :
    Except String (List (String × Json)) :=
  let kvs1 := setEntry kvs "modified" (.str now)
  match pyContains j "name" with
  | .error e => .error e
  | .ok hasName =>
    match (if hasName then (pyGetItem j "name").map (fun v => setEntry kvs1 "name" v)
           else .ok kvs1) with
    | .error e => .error e
    | .ok kvs2 =>
      match pyContains j "data" with
      | .error e => .error e
      | .ok hasData =>
        if hasData then (pyGetItem j "data").map (fun v => setEntry kvs2 "data" v)
        else .ok kvs2

/-- PUT /api/files/<file_id>.  Note the exception routing: json.load on an
unparseable stored file raises json.JSONDecodeError, caught by the first
except clause as a 400 "Invalid JSON in request"; a malformed request body
makes request.json raise werkzeug BadRequest, which is not a
json.JSONDecodeError and therefore falls to `except Exception` as a 500. -/
def update_file (fileId : String) (body : ReqBody) (now : String) (s : ServerState) :
    HttpResponse × ServerState :=
  match getEntry s.files fileId with
  | none => ({status := 404, body := errBody "File not found"}, s)
  | some .invalid => ({status := 400, body := errBody "Invalid JSON in request"}, s)
  | some (.json fd) =>
    match body with
    | .malformed => ({status := 500, body := errBody "400 Bad Request: failed to decode JSON"}, s)
    | .valid j =>
      match fd with
      | .obj kvs =>
        match applyUpdateFields kvs j now with
        | .error e => ({status := 500, body := errBody e}, s)
        | .ok kvs' =>
          ({status := 200, body := .obj [("success", .bool true), ("modified", .str now)]},
           ⟨setEntry s.files fileId (.json (.obj kvs')), s.metadata⟩)
      | _ => ({status := 500, body := errBody "TypeError: item assignment unsupported"}, s)

/-- DELETE /api/files/<file_id>.  The recent pointer id is read before the
unlink; when it raises (non-dict pointer file) nothing has been deleted yet.
A listing failure after the unlink leaves the file deleted. -/
def delete_file (fileId now : String) (s : ServerState) : HttpResponse × ServerState :=
  match getEntry s.files fileId with
  | none => ({status := 404, body := errBody "File not found"}, s)
  | some _ =>
    match FileManager.get_recent_file_id s.metadata with
    | .error e => ({status := 500, body := errBody e}, s)
    | .ok rid =>
      let files1 := removeFile s.files fileId
      if pyEqStr rid fileId then
        match FileManager.get_all_files files1 with
        | .error e => ({status := 500, body := errBody e}, ⟨files1, s.metadata⟩)
        | .ok [] => ({status := 200, body := successBody}, ⟨files1, none⟩)
        | .ok (e0 :: _) =>
          ({status := 200, body := successBody},
           ⟨files1, FileManager.update_recent_file e0.id now⟩)
      else ({status := 200, body := successBody}, ⟨files1, s.metadata⟩)

/-- GET /api/recent: the recent-file resolution flow. -/
def get_recent_file (freshId now : String) (s : ServerState) : HttpResponse × ServerState :=
  match FileManager.get_recent_file_id s.metadata with
  | .error e => ({status := 500, body := errBody e}, s)
  | .ok rid =>
    if pyTruthy rid && (getEntry s.files (pyStr rid)).isSome then
      ({status := 200, body := .obj [("recentFileId", rid)]}, s)
    else
      match FileManager.get_all_files s.files with
      | .error e => ({status := 500, body := errBody e}, s)
      | .ok (e0 :: _) =>
        ({status := 200, body := .obj [("recentFileId", e0.id)]},
         ⟨s.files, FileManager.update_recent_file e0.id now⟩)
      | .ok [] =>
        let created := FileManager.create_file (.str "My First Spreadsheet") freshId now s.files
        ({status := 200, body := .obj [("recentFileId", .str freshId)]},
         ⟨created.2, FileManager.update_recent_file (.str freshId) now⟩)

/-! ### Order lemmas for the Python comparisons -/

theorem charListLt_irrefl : ∀ l, charListLt l l = false
  | [] => rfl
  | c :: cs => by
    simp only [charListLt, Nat.lt_irrefl, if_false]
    exact charListLt_irrefl cs

theorem charListLt_trans : ∀ {a b c : List Char},
    charListLt a b = true → charListLt b c = true → charListLt a c = true
  | [], [], _, h1, _ => by simp [charListLt] at h1
  | [], _ :: _, [], _, h2 => by simp [charListLt] at h2
  | [], _ :: _, _ :: _, _, _ => rfl
  | _ :: _, [], _, h1, _ => by simp [charListLt] at h1
  | _ :: _, _ :: _, [], _, h2 => by simp [charListLt] at h2
  | a :: as, b :: bs, c :: cs, h1, h2 => by
    simp only [charListLt] at h1 h2 ⊢
    by_cases hab : a.toNat < b.toNat
    · by_cases hbc : b.toNat < c.toNat
      · rw [if_pos (by omega)]
      · rw [if_neg hbc] at h2
        by_cases hcb : c.toNat < b.toNat
        · rw [if_pos hcb] at h2; exact absurd h2 (by simp)
        · rw [if_pos (by omega)]
    · rw [if_neg hab] at h1
      by_cases hba : b.toNat < a.toNat
      · rw [if_pos hba] at h1; exact absurd h1 (by simp)
      · rw [if_neg hba] at h1
        by_cases hbc : b.toNat < c.toNat
        · rw [if_pos (by omega)]
        · rw [if_neg hbc] at h2
          by_cases hcb : c.toNat < b.toNat
          · rw [if_pos hcb] at h2; exact absurd h2 (by simp)
          · rw [if_neg hcb] at h2
            rw [if_neg (by omega), if_neg (by omega)]
            exact charListLt_trans h1 h2

theorem charListLt_asymm {a b : List Char} (h : charListLt a b = true) :
    charListLt b a = false := by
  cases hba : charListLt b a
  · rfl
  · have := charListLt_trans h hba
    rw [charListLt_irrefl] at this
    exact absurd this (by simp)

theorem char_eq_of_toNat_eq {c d : Char} (h : c.toNat = d.toNat) : c = d :=
  Char.eq_of_val_eq (UInt32.toNat.inj h)

theorem charListLt_total : ∀ {a b : List Char},
    charListLt a b = false → charListLt b a = true ∨ a = b
  | [], [], _ => Or.inr rfl
  | [], _ :: _, h => by simp [charListLt] at h
  | _ :: _, [], _ => Or.inl rfl
  | a :: as, b :: bs, h => by
    simp only [charListLt] at h ⊢
    by_cases hab : a.toNat < b.toNat
    · simp [hab] at h
    · by_cases hba : b.toNat < a.toNat
      · rw [if_pos hba]
        exact Or.inl rfl
      · have hEq : a = b := char_eq_of_toNat_eq (by omega)
        rw [if_neg hba, if_neg (by omega)] at h ⊢
        rcases charListLt_total h with h' | h'
        · exact Or.inl h'
        · exact Or.inr (by rw [hEq, h'])

theorem charListLt_false_trans {a b c : List Char}
    (h1 : charListLt b a = false) (h2 : charListLt c b = false) :
    charListLt c a = false := by
  rcases charListLt_total h1 with hab | hab
  · rcases charListLt_total h2 with hbc | hbc
    · cases hca : charListLt c a
      · rfl
      · have := charListLt_trans hca hab
        exact absurd (charListLt_trans this hbc) (by simp [charListLt_irrefl])
    · rw [hbc]; exact h1
  · rw [← hab]; exact h2

theorem strLt_irrefl (s : String) : strLt s s = false := charListLt_irrefl _

theorem strLt_asymm {s t : String} (h : strLt s t = true) : strLt t s = false :=
  charListLt_asymm h

theorem strLt_trans {s t u : String} (h1 : strLt s t = true) (h2 : strLt t u = true) :
    strLt s u = true := charListLt_trans h1 h2

theorem strLt_false_trans {s t u : String} (h1 : strLt t s = false)
    (h2 : strLt u t = false) : strLt u s = false := charListLt_false_trans h1 h2

/-- Transitivity of the modelled Python string `<=`. -/
theorem strLe_trans {s t u : String} (h1 : strLe s t = true) (h2 : strLe t u = true) :
    strLe s u = true := by
  simp only [strLe, Bool.not_eq_true'] at h1 h2 ⊢
  exact charListLt_false_trans h1 h2

theorem strLt_right_false {s t u : String} (h1 : strLt s t = true)
    (h2 : strLt s u = false) : strLt t u = false := by
  cases htu : strLt t u
  · rfl
  · rw [strLt_trans h1 htu] at h2
    exact absurd h2 (by simp)

theorem pyLt_asymm : ∀ {x y : Json}, pyLt x y = .ok true → pyLt y x = .ok false := by
  intro x y h
  cases x <;> cases y <;>
    simp only [pyLt, Except.ok.injEq] at h ⊢ <;>
    try exact Except.noConfusion h
  all_goals
    first
      | exact strLt_asymm h
      | (rw [decide_eq_true_eq] at h
         rw [decide_eq_false_iff_not]
         first
           | (split_ifs at h ⊢ <;> omega)
           | omega)

theorem pyLt_step : ∀ {x y z : Json},
    pyLt x y = .ok true → pyLt x z = .ok false → pyLt y z = .ok false := by
  intro x y z h1 h2
  cases x <;> cases y <;> cases z <;>
    simp only [pyLt, Except.ok.injEq] at h1 h2 ⊢ <;>
    try first
      | exact Except.noConfusion h1
      | exact Except.noConfusion h2
  all_goals
    first
      | exact strLt_right_false h1 h2
      | (rw [decide_eq_true_eq] at h1
         rw [decide_eq_false_iff_not] at h2 ⊢
         first
           | (split_ifs at h1 h2 ⊢ <;> omega)
           | omega)

/-! ### Association-list lemmas -/

theorem getEntry_setEntry_self {α : Type} :
    ∀ (l : List (String × α)) (k : String) (v : α), getEntry (setEntry l k v) k = some v
  | [], k, v => by simp [setEntry, getEntry]
  | (k', v') :: t, k, v => by
    by_cases h : k' = k
    · simp [setEntry, h, getEntry]
    · simp only [setEntry, if_neg h, getEntry]
      exact getEntry_setEntry_self t k v

theorem getEntry_setEntry_ne {α : Type} {k2 k : String} (hne : k2 ≠ k) :
    ∀ (l : List (String × α)) (v : α), getEntry (setEntry l k v) k2 = getEntry l k2
  | [], v => by
    simp only [setEntry, getEntry]
    rw [if_neg (fun h : k = k2 => hne h.symm)]
  | (k', v') :: t, v => by
    by_cases h : k' = k
    · have hne2 : k' ≠ k2 := fun hk => hne (by rw [← hk, h])
      simp only [setEntry, if_pos h, getEntry,
        if_neg (fun hk : k = k2 => hne hk.symm), if_neg hne2]
    · simp only [setEntry, if_neg h, getEntry]
      by_cases h2 : k' = k2
      · rw [if_pos h2, if_pos h2]
      · rw [if_neg h2, if_neg h2]
        exact getEntry_setEntry_ne hne t v

theorem mem_setEntry {α : Type} :
    ∀ {l : List (String × α)} {k : String} {v : α} {p : String × α},
      p ∈ setEntry l k v → p = (k, v) ∨ p ∈ l := by
  intro l
  induction l with
  | nil =>
    intro k v p hp
    simp [setEntry] at hp
    exact Or.inl hp
  | cons hd t ih =>
    intro k v p hp
    obtain ⟨k', v'⟩ := hd
    simp only [setEntry] at hp
    by_cases h : k' = k
    · rw [if_pos h] at hp
      rcases List.mem_cons.mp hp with h1 | h1
      · exact Or.inl h1
      · exact Or.inr (List.mem_cons_of_mem _ h1)
    · rw [if_neg h] at hp
      rcases List.mem_cons.mp hp with h1 | h1
      · exact Or.inr (h1 ▸ List.mem_cons_self _ _)
      · rcases ih h1 with h2 | h2
        · exact Or.inl h2
        · exact Or.inr (List.mem_cons_of_mem _ h2)

theorem getEntry_some_mem {α : Type} :
    ∀ {l : List (String × α)} {k : String} {v : α}, getEntry l k = some v → (k, v) ∈ l := by
  intro l
  induction l with
  | nil => intro k v h; simp [getEntry] at h
  | cons hd t ih =>
    intro k v h
    cases hd with
    | _ k' v' =>
      simp only [getEntry] at h
      by_cases hk : k' = k
      · rw [if_pos hk] at h
        cases h
        exact hk ▸ List.mem_cons_self _ _
      · rw [if_neg hk] at h
        exact List.mem_cons_of_mem _ (ih h)

theorem mem_getEntry_isSome {α : Type} :
    ∀ {l : List (String × α)} {k : String} {v : α}, (k, v) ∈ l → (getEntry l k).isSome = true := by
  intro l
  induction l with
  | nil => intro k v h; simp at h
  | cons hd t ih =>
    intro k v h
    cases hd with
    | _ k' v' =>
      simp only [getEntry]
      by_cases hk : k' = k
      · rw [if_pos hk]; rfl
      · rw [if_neg hk]
        rcases List.mem_cons.mp h with h1 | h1
        · cases h1; exact absurd rfl hk
        · exact ih h1

theorem mem_removeFile {d : FsDir} {k : String} {p : String × FileContent}
    (h : p ∈ removeFile d k) : p ∈ d :=
  (List.mem_filter.mp h).1

/-! ### Listing and sorting lemmas -/

/-- An entry whose modified value is a string (the shape every well-formed
document produces). -/
def StrModified (e : ListEntry) : Prop := ∃ m, e.modified = .str m

/-- The descending-order relation established by the listing sort: the later
entry's modified key is not greater (comparison defined and false). -/
def entryGE (a b : ListEntry) : Prop := pyLt a.modified b.modified = .ok false

theorem insertDesc_mem {e : ListEntry} :
    ∀ {l l' : List ListEntry}, FileManager.insertDesc e l = .ok l' → ∀ x ∈ l', x = e ∨ x ∈ l := by
  intro l
  induction l with
  | nil =>
    intro l' h x hx
    simp only [FileManager.insertDesc, Except.ok.injEq] at h
    rw [← h] at hx
    simp at hx
    exact Or.inl hx
  | cons hd t ih =>
    intro l' h x hx
    simp only [FileManager.insertDesc] at h
    cases hlt : pyLt hd.modified e.modified with
    | error msg => rw [hlt] at h; exact Except.noConfusion h
    | ok b =>
      rw [hlt] at h
      cases b
      · cases hrec : FileManager.insertDesc e t with
        | error msg => rw [hrec] at h; exact Except.noConfusion h
        | ok t' =>
          rw [hrec] at h
          simp only [Except.ok.injEq] at h
          rw [← h] at hx
          rcases List.mem_cons.mp hx with h1 | h1
          · exact Or.inr (h1 ▸ List.mem_cons_self _ _)
          · rcases ih hrec x h1 with h2 | h2
            · exact Or.inl h2
            · exact Or.inr (List.mem_cons_of_mem _ h2)
      · simp only [Except.ok.injEq] at h
        rw [← h] at hx
        rcases List.mem_cons.mp hx with h1 | h1
        · exact Or.inl h1
        · exact Or.inr h1

theorem insertDesc_perm {e : ListEntry} :
    ∀ {l l' : List ListEntry}, FileManager.insertDesc e l = .ok l' → l'.Perm (e :: l) := by
  intro l
  induction l with
  | nil =>
    intro l' h
    simp only [FileManager.insertDesc, Except.ok.injEq] at h
    rw [← h]
  | cons hd t ih =>
    intro l' h
    simp only [FileManager.insertDesc] at h
    cases hlt : pyLt hd.modified e.modified with
    | error msg => rw [hlt] at h; exact Except.noConfusion h
    | ok b =>
      rw [hlt] at h
      cases b
      · cases hrec : FileManager.insertDesc e t with
        | error msg => rw [hrec] at h; exact Except.noConfusion h
        | ok t' =>
          rw [hrec] at h
          simp only [Except.ok.injEq] at h
          rw [← h]
          exact ((ih hrec).cons hd).trans (List.Perm.swap e hd t)
      · simp only [Except.ok.injEq] at h
        rw [← h]

theorem insertDesc_pairwise {e : ListEntry} :
    ∀ {l l' : List ListEntry}, FileManager.insertDesc e l = .ok l' →
      l.Pairwise entryGE → l'.Pairwise entryGE := by
  intro l
  induction l with
  | nil =>
    intro l' h _
    simp only [FileManager.insertDesc, Except.ok.injEq] at h
    rw [← h]
    exact List.pairwise_singleton _ _
  | cons hd t ih =>
    intro l' h hp
    rcases List.pairwise_cons.mp hp with ⟨hhd, ht⟩
    simp only [FileManager.insertDesc] at h
    cases hlt : pyLt hd.modified e.modified with
    | error msg => rw [hlt] at h; exact Except.noConfusion h
    | ok b =>
      rw [hlt] at h
      cases b
      · cases hrec : FileManager.insertDesc e t with
        | error msg => rw [hrec] at h; exact Except.noConfusion h
        | ok t' =>
          rw [hrec] at h
          simp only [Except.ok.injEq] at h
          rw [← h]
          refine List.pairwise_cons.mpr ⟨?_, ih hrec ht⟩
          intro x hx
          rcases insertDesc_mem hrec x hx with h1 | h1
          · exact h1 ▸ hlt
          · exact hhd x h1
      · simp only [Except.ok.injEq] at h
        rw [← h]
        refine List.pairwise_cons.mpr ⟨?_, hp⟩
        intro x hx
        rcases List.mem_cons.mp hx with h1 | h1
        · exact h1 ▸ pyLt_asymm hlt
        · exact pyLt_step hlt (hhd x h1)

theorem insertDesc_ok_strs {e : ListEntry} (he : StrModified e) :
    ∀ {l : List ListEntry}, (∀ x ∈ l, StrModified x) →
      ∃ l', FileManager.insertDesc e l = .ok l' := by
  intro l
  induction l with
  | nil => intro _; exact ⟨[e], rfl⟩
  | cons hd t ih =>
    intro hl
    obtain ⟨me, hme⟩ := he
    obtain ⟨mh, hmh⟩ := hl hd (List.mem_cons_self _ _)
    obtain ⟨t', ht'⟩ := ih (fun x hx => hl x (List.mem_cons_of_mem _ hx))
    simp only [FileManager.insertDesc, hmh, hme, pyLt]
    cases strLt mh me
    · rw [ht']
      exact ⟨hd :: t', rfl⟩
    · exact ⟨e :: hd :: t, rfl⟩

theorem sortAux_props :
    ∀ {l acc : List ListEntry}, (∀ x ∈ acc, StrModified x) → (∀ x ∈ l, StrModified x) →
      acc.Pairwise entryGE →
      ∃ out, FileManager.sortAux acc l = .ok out ∧ out.Perm (acc ++ l) ∧
        out.Pairwise entryGE ∧ (∀ x ∈ out, StrModified x) := by
  intro l
  induction l with
  | nil =>
    intro acc hacc _ hp
    exact ⟨acc, rfl, by simp, hp, hacc⟩
  | cons e rest ih =>
    intro acc hacc hl hp
    obtain ⟨acc', hacc'⟩ :=
      insertDesc_ok_strs (hl e (List.mem_cons_self _ _)) hacc
    have haccStr : ∀ x ∈ acc', StrModified x := by
      intro x hx
      rcases insertDesc_mem hacc' x hx with h1 | h1
      · exact h1 ▸ hl e (List.mem_cons_self _ _)
      · exact hacc x h1
    obtain ⟨out, hout, hperm, hpair, hstr⟩ :=
      ih haccStr (fun x hx => hl x (List.mem_cons_of_mem _ hx))
        (insertDesc_pairwise hacc' hp)
    refine ⟨out, ?_, ?_, hpair, hstr⟩
    · simp only [FileManager.sortAux, hacc']
      exact hout
    · have h1 : (acc' ++ rest).Perm ((e :: acc) ++ rest) :=
        (insertDesc_perm hacc').append_right rest
    -- out ~ acc' ++ rest ~ e :: (acc ++ rest) ~ acc ++ e :: rest
      exact (hperm.trans (h1.trans List.perm_middle.symm))

/-- The listing row a stored file contributes, if any: files that do not parse
or whose dict misses one of the three keys are skipped. -/
def entryOfFile (p : String × FileContent) : Option ListEntry :=
  match p.2 with
  | .json (.obj kvs) =>
    match getEntry kvs "id", getEntry kvs "name", getEntry kvs "modified" with
    | some i, some n, some m => some ⟨i, n, m⟩
    | _, _, _ => none
  | _ => none

/-- A file content the listing loop handles without raising: unparseable
(skipped), or a dict that is either missing one of the listing keys (skipped)
or has a string modified value (listed and sortable). -/
def goodListFile (c : FileContent) : Bool :=
  match c with
  | .invalid => true
  | .json (.obj kvs) =>
    match getEntry kvs "id", getEntry kvs "name", getEntry kvs "modified" with
    | some _, some _, some (.str _) => true
    | some _, some _, some _ => false
    | _, _, _ => true
  | .json _ => false

/-- A file that is a fully well-formed stored document from the filename's
point of view: either unparseable, or a dict whose id field is the string
equal to the filename stem, with name present and a string modified field. -/
def wfDocFile (fid : String) (c : FileContent) : Bool :=
  match c with
  | .invalid => true
  | .json (.obj kvs) =>
    match getEntry kvs "id", getEntry kvs "name", getEntry kvs "modified" with
    | some (.str i), some _, some (.str _) => i == fid
    | _, _, _ => false
  | .json _ => false

theorem wfDocFile_good {fid : String} {c : FileContent} (h : wfDocFile fid c = true) :
    goodListFile c = true := by
  cases c with
  | invalid => rfl
  | json j =>
    cases j with
    | obj kvs =>
      simp only [wfDocFile] at h
      simp only [goodListFile]
      cases hid : getEntry kvs "id" with
      | none => rfl
      | some i =>
        rw [hid] at h
        cases hname : getEntry kvs "name" with
        | none => rfl
        | some n =>
          rw [hname] at h
          cases hmod : getEntry kvs "modified" with
          | none => rfl
          | some m =>
            rw [hmod] at h
            cases i <;> cases m <;> first | rfl | exact absurd h (by simp)
    | null => exact absurd h (by simp [wfDocFile])
    | bool b => exact absurd h (by simp [wfDocFile])
    | num n => exact absurd h (by simp [wfDocFile])
    | str s => exact absurd h (by simp [wfDocFile])
    | arr l => exact absurd h (by simp [wfDocFile])

theorem wfDocFile_entry {p : String × FileContent} (h : wfDocFile p.1 p.2 = true)
    {e : ListEntry} (he : entryOfFile p = some e) :
    e.id = .str p.1 := by
  obtain ⟨fid, c⟩ := p
  cases c with
  | invalid => exact absurd he (by simp [entryOfFile])
  | json j =>
    cases j with
    | obj kvs =>
      simp only [wfDocFile] at h
      simp only [entryOfFile] at he
      cases hid : getEntry kvs "id" with
      | none => rw [hid] at h; exact absurd h (by simp)
      | some i =>
        rw [hid] at h he
        cases hname : getEntry kvs "name" with
        | none => rw [hname] at h; cases i <;> exact absurd h (by simp)
        | some n =>
          rw [hname] at h he
          cases hmod : getEntry kvs "modified" with
          | none => rw [hmod] at h; cases i <;> exact absurd h (by simp)
          | some m =>
            rw [hmod] at h he
            cases i with
            | str s =>
              cases m with
              | str ms =>
                simp only [Option.some.injEq] at he
                have hs : s = fid := by simpa using h
                rw [← he]
                simp [hs]
              | null => exact absurd h (by simp)
              | bool b => exact absurd h (by simp)
              | num nn => exact absurd h (by simp)
              | arr l => exact absurd h (by simp)
              | obj o => exact absurd h (by simp)
            | null => exact absurd h (by simp)
            | bool b => exact absurd h (by simp)
            | num n => exact absurd h (by simp)
            | arr l => exact absurd h (by simp)
            | obj o => exact absurd h (by simp)
    | null => exact absurd he (by simp [entryOfFile])
    | bool b => exact absurd he (by simp [entryOfFile])
    | num n => exact absurd he (by simp [entryOfFile])
    | str s => exact absurd he (by simp [entryOfFile])
    | arr l => exact absurd he (by simp [entryOfFile])

theorem collectEntries_props :
    ∀ {d : FsDir}, (∀ p ∈ d, goodListFile p.2 = true) →
      FileManager.collectEntries d = .ok (d.filterMap entryOfFile) ∧
      (∀ x ∈ d.filterMap entryOfFile, StrModified x) := by
  intro d
  induction d with
  | nil => intro _; exact ⟨rfl, by simp⟩
  | cons p rest ih =>
    intro hgood
    obtain ⟨fid, c⟩ := p
    obtain ⟨ihok, ihstr⟩ := ih (fun q hq => hgood q (List.mem_cons_of_mem _ hq))
    have hc : goodListFile c = true := hgood (fid, c) (List.mem_cons_self _ _)
    cases c with
    | invalid =>
      refine ⟨?_, ?_⟩
      · simp only [FileManager.collectEntries, FileManager.readListEntry]
        rw [show List.filterMap entryOfFile ((fid, FileContent.invalid) :: rest)
              = rest.filterMap entryOfFile by simp [entryOfFile]]
        exact ihok
      · intro x hx
        rw [show List.filterMap entryOfFile ((fid, FileContent.invalid) :: rest)
              = rest.filterMap entryOfFile by simp [entryOfFile]] at hx
        exact ihstr x hx
    | json j =>
      cases j with
      | obj kvs =>
        simp only [goodListFile] at hc
        simp only [FileManager.collectEntries, FileManager.readListEntry]
        cases hid : getEntry kvs "id" with
        | none =>
          rw [show List.filterMap entryOfFile ((fid, FileContent.json (.obj kvs)) :: rest)
                = rest.filterMap entryOfFile by simp [entryOfFile, hid]]
          exact ⟨ihok, ihstr⟩
        | some i =>
          rw [hid] at hc
          cases hname : getEntry kvs "name" with
          | none =>
            rw [show List.filterMap entryOfFile ((fid, FileContent.json (.obj kvs)) :: rest)
                  = rest.filterMap entryOfFile by simp [entryOfFile, hid, hname]]
            exact ⟨ihok, ihstr⟩
          | some n =>
            rw [hname] at hc
            cases hmod : getEntry kvs "modified" with
            | none =>
              rw [show List.filterMap entryOfFile ((fid, FileContent.json (.obj kvs)) :: rest)
                    = rest.filterMap entryOfFile by simp [entryOfFile, hid, hname, hmod]]
              exact ⟨ihok, ihstr⟩
            | some m =>
              rw [hmod] at hc
              have hcons : List.filterMap entryOfFile ((fid, FileContent.json (.obj kvs)) :: rest)
                  = (⟨i, n, m⟩ : ListEntry) :: rest.filterMap entryOfFile := by
                simp [entryOfFile, hid, hname, hmod]
              rw [hcons, ihok]
              refine ⟨rfl, ?_⟩
              intro x hx
              rcases List.mem_cons.mp hx with h1 | h1
              · cases m with
                | str ms => exact h1 ▸ ⟨ms, rfl⟩
                | null => exact absurd hc (by simp)
                | bool b => exact absurd hc (by simp)
                | num nn => exact absurd hc (by simp)
                | arr l => exact absurd hc (by simp)
                | obj o => exact absurd hc (by simp)
              · exact ihstr x h1
      | null => exact absurd hc (by simp [goodListFile])
      | bool b => exact absurd hc (by simp [goodListFile])
      | num n => exact absurd hc (by simp [goodListFile])
      | str s => exact absurd hc (by simp [goodListFile])
      | arr l => exact absurd hc (by simp [goodListFile])

/-- Characterization of FileManager.get_all_files on a directory whose files
are all listable: it succeeds, returns a permutation of the rows contributed
by the stored files, pairwise in weakly descending modified order. -/
theorem get_all_files_props {d : FsDir} (h : ∀ p ∈ d, goodListFile p.2 = true) :
    ∃ out, FileManager.get_all_files d = .ok out ∧
      out.Perm (d.filterMap entryOfFile) ∧ out.Pairwise entryGE ∧
      (∀ x ∈ out, StrModified x) := by
  obtain ⟨hok, hstr⟩ := collectEntries_props h
  obtain ⟨out, hout, hperm, hpair, hstr'⟩ :=
    @sortAux_props (d.filterMap entryOfFile) [] (by simp) hstr (List.Pairwise.nil)
  refine ⟨out, ?_, by simpa using hperm, hpair, hstr'⟩
  simp only [FileManager.get_all_files, hok]
  exact hout

/-- In a pairwise weakly descending listing, the head entry is maximal. -/
theorem pairwise_head_max {e : ListEntry} {es : List ListEntry}
    (hp : (e :: es).Pairwise entryGE) (hs : StrModified e) :
    ∀ x ∈ e :: es, pyLt e.modified x.modified = .ok false := by
  intro x hx
  rcases List.mem_cons.mp hx with h1 | h1
  · obtain ⟨m, hm⟩ := hs
    rw [h1, hm]
    simp [pyLt, strLt_irrefl]
  · exact (List.pairwise_cons.mp hp).1 x h1

/-! ### Claim theorems -/

/-- C7: for every name, the document returned by Create(name) and read back by
Get has that name, equal created and modified stamps, and the documented
default data: empty cells, 26 column widths of 94 units, 100 row heights of
20 units, lastActiveCell "A1", empty selections. -/
theorem create_then_get_defaults (name : Json) (fileId ts now : String) (d : FsDir)
    (meta : Option FileContent) :
    get_file fileId now ⟨(FileManager.create_file name fileId ts d).2, meta⟩ =
      ({status := 200, body := FileManager.newDocJson name fileId ts},
       ⟨(FileManager.create_file name fileId ts d).2,
        some (.json (FileManager.mkMeta (.str fileId) now))⟩) ∧
    FileManager.newDocJson name fileId ts =
      .obj [("id", .str fileId), ("name", name), ("created", .str ts),
            ("modified", .str ts),
            ("data", .obj [("cells", .obj []),
              ("columnWidths", .arr (List.replicate 26 (.num 94))),
              ("rowHeights", .arr (List.replicate 100 (.num 20))),
              ("metadata", .obj [("lastActiveCell", .str "A1"),
                                 ("selections", .arr [])])])] := by
  constructor
  · simp only [get_file, FileManager.create_file, FileManager.update_recent_file]
    rw [getEntry_setEntry_self]
  · rfl

/-- C5 (amended): Get performs no shape validation: it returns whatever JSON
the stored file parses to with 200 (setting the recent pointer), 404 when the
file is absent, and 500 "Invalid file format" when the file does not parse. -/
theorem get_file_cases (s : ServerState) (fileId now : String) :
    (getEntry s.files fileId = none →
      get_file fileId now s = ({status := 404, body := errBody "File not found"}, s)) ∧
    (getEntry s.files fileId = some .invalid →
      get_file fileId now s = ({status := 500, body := errBody "Invalid file format"}, s)) ∧
    (∀ j, getEntry s.files fileId = some (.json j) →
      get_file fileId now s =
        ({status := 200, body := j},
         ⟨s.files, some (.json (FileManager.mkMeta (.str fileId) now))⟩)) := by
  refine ⟨?_, ?_, ?_⟩
  · intro h; simp [get_file, h]
  · intro h; simp [get_file, h]
  · intro j h; simp [get_file, h, FileManager.update_recent_file]

/-- C5 counterexample: a stored file that parses as JSON but lacks the
expected document shape (here a bare array) is returned as a 200 document,
not signalled as Corrupt. -/
theorem get_file_no_shape_validation :
    get_file "x" "T" ⟨[("x", .json (.arr []))], none⟩ =
      ({status := 200, body := .arr []},
       ⟨[("x", .json (.arr []))],
        some (.json (FileManager.mkMeta (.str "x") "T"))⟩) := rfl

/-- C5 witness: the amended trichotomy applied to a one-file store holding a
valid document object. -/
theorem get_file_cases_witness :
    get_file "x" "T" ⟨[("x", .json (.obj [("id", .str "x")]))], none⟩ =
      ({status := 200, body := .obj [("id", .str "x")]},
       ⟨[("x", .json (.obj [("id", .str "x")]))],
        some (.json (FileManager.mkMeta (.str "x") "T"))⟩) :=
  (get_file_cases ⟨[("x", .json (.obj [("id", .str "x")]))], none⟩ "x" "T").2.2
    (.obj [("id", .str "x")]) rfl

/-- C4: on GET a corrupt stored file is surfaced as 500 "Invalid file format",
but on PUT the same condition is caught by the except clause intended for the
request body and surfaced as 400 "Invalid JSON in request" — the claimed
"500 on every route that loads the document" fails for PUT. -/
theorem corrupt_file_routes :
    get_file "doc1" "T" ⟨[("doc1", .invalid)], none⟩ =
      ({status := 500, body := errBody "Invalid file format"},
       ⟨[("doc1", .invalid)], none⟩) ∧
    update_file "doc1" (.valid (.obj [])) "T" ⟨[("doc1", .invalid)], none⟩ =
      ({status := 400, body := errBody "Invalid JSON in request"},
       ⟨[("doc1", .invalid)], none⟩) := ⟨rfl, rfl⟩

/-- C3: a malformed PUT body makes request.json raise the framework's
BadRequest, which is not a json.JSONDecodeError and therefore reaches the
generic handler as a 500, not the claimed 400; the 404 for a missing id
still holds (the existence check precedes body parsing). -/
theorem update_malformed_body_routes :
    (update_file "doc1" .malformed "T1"
      ⟨[("doc1", .json (.obj [("id", .str "doc1")]))], none⟩).1.status = 500 ∧
    (update_file "missing" .malformed "T1"
      ⟨[("doc1", .json (.obj [("id", .str "doc1")]))], none⟩).1.status = 404 := ⟨rfl, rfl⟩

/-- C10 (amended): POST body handling is by Python truthiness: a truthy
non-dict body raises AttributeError at data.get and yields 500 with an error
body and no state change; any falsy body (null, false, 0, empty string,
empty array, empty dict) is replaced by an empty dict and creates a document
with the default name; a dict body creates a document named by its name field
when present. -/
theorem create_route_cases (j : Json) (freshId now : String) (s : ServerState) :
    (pyTruthy j = true → (∀ kvs, j ≠ .obj kvs) →
      ∃ msg, create_file_route (.valid j) freshId now s =
        ({status := 500, body := errBody msg}, s)) ∧
    (pyTruthy j = false →
      create_file_route (.valid j) freshId now s =
        ({status := 201,
          body := FileManager.newDocJson (.str "Untitled Spreadsheet") freshId now},
         ⟨setEntry s.files freshId
            (.json (FileManager.newDocJson (.str "Untitled Spreadsheet") freshId now)),
          some (.json (FileManager.mkMeta (.str freshId) now))⟩)) ∧
    (∀ kvs, j = .obj kvs →
      create_file_route (.valid j) freshId now s =
        ({status := 201,
          body := FileManager.newDocJson
            ((getEntry kvs "name").getD (.str "Untitled Spreadsheet")) freshId now},
         ⟨setEntry s.files freshId
            (.json (FileManager.newDocJson
              ((getEntry kvs "name").getD (.str "Untitled Spreadsheet")) freshId now)),
          some (.json (FileManager.mkMeta (.str freshId) now))⟩)) := by
  refine ⟨?_, ?_, ?_⟩
  · intro ht hno
    cases j with
    | null => exact absurd ht (by simp [pyTruthy])
    | bool b =>
      exact ⟨"AttributeError: value has no attribute get",
        by simp [create_file_route, ht]⟩
    | num n =>
      exact ⟨"AttributeError: value has no attribute get",
        by simp [create_file_route, ht]⟩
    | str t =>
      exact ⟨"AttributeError: value has no attribute get",
        by simp [create_file_route, ht]⟩
    | arr l =>
      exact ⟨"AttributeError: value has no attribute get",
        by simp [create_file_route, ht]⟩
    | obj kvs => exact absurd rfl (hno kvs)
  · intro hf
    cases j with
    | obj kvs =>
      have : kvs = [] := by
        simp [pyTruthy] at hf
        exact hf
      subst this
      simp [create_file_route, pyTruthy, FileManager.create_file,
        FileManager.update_recent_file, getEntry]
    | null => simp [create_file_route, pyTruthy, FileManager.create_file,
        FileManager.update_recent_file, getEntry]
    | bool b =>
      cases b with
      | false => simp [create_file_route, pyTruthy, FileManager.create_file,
          FileManager.update_recent_file, getEntry]
      | true => exact absurd hf (by simp [pyTruthy])
    | num n =>
      simp [pyTruthy] at hf
      subst hf
      simp [create_file_route, pyTruthy, FileManager.create_file,
        FileManager.update_recent_file, getEntry]
    | str t =>
      simp [pyTruthy] at hf
      subst hf
      simp [create_file_route, pyTruthy, FileManager.create_file,
        FileManager.update_recent_file, getEntry]
    | arr l =>
      simp [pyTruthy] at hf
      subst hf
      simp [create_file_route, pyTruthy, FileManager.create_file,
        FileManager.update_recent_file, getEntry]
  · intro kvs hk
    subst hk
    by_cases ht : pyTruthy (Json.obj kvs) = true
    · simp [create_file_route, ht, FileManager.create_file,
        FileManager.update_recent_file]
    · have : kvs = [] := by
        simp [pyTruthy] at ht
        exact ht
      subst this
      simp [create_file_route, pyTruthy, FileManager.create_file,
        FileManager.update_recent_file]

/-- C10 counterexample: the JSON body `false` — neither an object nor an
absent body — still takes the 201 creation path and creates a document. -/
theorem create_route_false_body_201 :
    (create_file_route (.valid (.bool false)) "f1" "T1" ⟨[], none⟩).1.status = 201 ∧
    (create_file_route (.valid (.bool false)) "f1" "T1" ⟨[], none⟩).2.files =
      [("f1", .json (FileManager.newDocJson (.str "Untitled Spreadsheet") "f1" "T1"))] :=
  ⟨rfl, rfl⟩

/-- C10 witness: a truthy non-object body (a non-empty array) yields a 500
error response and leaves the state unchanged. -/
theorem create_route_cases_witness :
    ∃ msg, create_file_route (.valid (.arr [.num 1])) "f2" "T2" ⟨[], none⟩ =
      ({status := 500, body := errBody msg}, (⟨[], none⟩ : ServerState)) :=
  (create_route_cases (.arr [.num 1]) "f2" "T2" ⟨[], none⟩).1 rfl (by intro kvs h; cases h)

/-- C8 (amended): when every stored file is unparseable, or a JSON object
that misses one of the listing keys, or a JSON object whose modified value is
a string (the only shape the code itself ever writes), List() succeeds: it
returns exactly one row per listable stored document (a permutation of the
rows the files contribute), each row holding only id, name and modified,
sorted by modified weakly descending with deterministic stable ties, and the
route wraps them as a 200 response; the skipped files are exactly the
unparseable ones and the objects missing a required key.  Outside that
condition the whole listing can fail with an uncaught TypeError surfaced as
500: a stored file parsing to a non-object JSON value fails at
file_data['id'], and a store mixing incomparable modified types (say one
numeric and one string) makes the sort's comparison raise — see the
counterexample for both. -/
theorem list_files_props (s : ServerState)
    (h : ∀ p ∈ s.files, goodListFile p.2 = true) :
    ∃ out, FileManager.get_all_files s.files = .ok out ∧
      out.Perm (s.files.filterMap entryOfFile) ∧
      out.Pairwise entryGE ∧
      list_files s =
        ({status := 200, body := .obj [("files", .arr (out.map ListEntry.toJson))]}, s) := by
  obtain ⟨out, hout, hperm, hpair, hstr⟩ := get_all_files_props h
  refine ⟨out, hout, hperm, hpair, ?_⟩
  simp [list_files, hout]

/-- C8 counterexample: two stores on which the listing neither skips a bad
file nor returns entries, refuting "skipped without failing the whole
listing" and forcing the amended side conditions: a stored file whose JSON is
a bare number raises TypeError at file_data['id'], and a store whose two
documents carry a numeric and a string modified value raises TypeError inside
the sort's comparison; in both cases GET /api/files returns 500. -/
theorem list_files_non_object_fails :
    FileManager.get_all_files [("a", .json (.num 3))] =
      .error "TypeError: value is not subscriptable" ∧
    (list_files ⟨[("a", .json (.num 3))], none⟩).1.status = 500 ∧
    FileManager.get_all_files
      [("a", .json (.obj [("id", Json.str "a"), ("name", Json.str "A"),
         ("modified", Json.num 1)])),
       ("b", .json (.obj [("id", Json.str "b"), ("name", Json.str "B"),
         ("modified", Json.str "2024-01-01")]))] =
      .error "TypeError: unorderable types" ∧
    (list_files ⟨[("a", .json (.obj [("id", Json.str "a"), ("name", Json.str "A"),
         ("modified", Json.num 1)])),
       ("b", .json (.obj [("id", Json.str "b"), ("name", Json.str "B"),
         ("modified", Json.str "2024-01-01")]))], none⟩).1.status = 500 :=
  ⟨rfl, rfl, rfl, rfl⟩

/-- C8 witness: the amended listing theorem applied to a store with one stale
document, one fresher document and one unparseable file. -/
theorem list_files_props_witness :
    (∀ p ∈ [("a", FileContent.json (.obj [("id", Json.str "a"), ("name", Json.str "A"),
              ("modified", Json.str "2024-01-01")])),
            ("b", FileContent.json (.obj [("id", Json.str "b"), ("name", Json.str "B"),
              ("modified", Json.str "2024-02-01")])),
            ("c", FileContent.invalid)], goodListFile p.2 = true) ∧
    ∃ out, FileManager.get_all_files
        [("a", FileContent.json (.obj [("id", Json.str "a"), ("name", Json.str "A"),
           ("modified", Json.str "2024-01-01")])),
         ("b", FileContent.json (.obj [("id", Json.str "b"), ("name", Json.str "B"),
           ("modified", Json.str "2024-02-01")])),
         ("c", FileContent.invalid)] = .ok out ∧
      out.Perm ([("a", FileContent.json (.obj [("id", Json.str "a"), ("name", Json.str "A"),
           ("modified", Json.str "2024-01-01")])),
         ("b", FileContent.json (.obj [("id", Json.str "b"), ("name", Json.str "B"),
           ("modified", Json.str "2024-02-01")])),
         ("c", FileContent.invalid)].filterMap entryOfFile) ∧
      out.Pairwise entryGE ∧
      list_files ⟨[("a", FileContent.json (.obj [("id", Json.str "a"), ("name", Json.str "A"),
           ("modified", Json.str "2024-01-01")])),
         ("b", FileContent.json (.obj [("id", Json.str "b"), ("name", Json.str "B"),
           ("modified", Json.str "2024-02-01")])),
         ("c", FileContent.invalid)], none⟩ =
        ({status := 200, body := .obj [("files", .arr (out.map ListEntry.toJson))]},
         ⟨[("a", FileContent.json (.obj [("id", Json.str "a"), ("name", Json.str "A"),
             ("modified", Json.str "2024-01-01")])),
           ("b", FileContent.json (.obj [("id", Json.str "b"), ("name", Json.str "B"),
             ("modified", Json.str "2024-02-01")])),
           ("c", FileContent.invalid)], none⟩) :=
  ⟨by decide,
   list_files_props ⟨[("a", FileContent.json (.obj [("id", Json.str "a"), ("name", Json.str "A"),
        ("modified", Json.str "2024-01-01")])),
      ("b", FileContent.json (.obj [("id", Json.str "b"), ("name", Json.str "B"),
        ("modified", Json.str "2024-02-01")])),
      ("c", FileContent.invalid)], none⟩ (by decide)⟩

theorem any_key_isSome {α : Type} :
    ∀ (l : List (String × α)) (k : String),
      l.any (fun q => q.1 == k) = (getEntry l k).isSome := by
  intro l k
  induction l with
  | nil => rfl
  | cons hd t ih =>
    obtain ⟨k', v'⟩ := hd
    by_cases h : k' = k
    · simp [getEntry, h]
    · simp only [List.any_cons, getEntry, if_neg h, ih]
      simp [h]

/-- The dict produced by the three field updates of update_file on a dict
payload: modified is stamped, then name and data are overwritten when the
payload contains them. -/
def mergedDoc (kvs p : List (String × Json)) (now : String) : List (String × Json) :=
  let kvs1 := setEntry kvs "modified" (.str now)
  let kvs2 :=
    match getEntry p "name" with
    | some v => setEntry kvs1 "name" v
    | none => kvs1
  match getEntry p "data" with
  | some v => setEntry kvs2 "data" v
  | none => kvs2

theorem applyUpdateFields_obj (kvs p : List (String × Json)) (now : String) :
    applyUpdateFields kvs (.obj p) now = .ok (mergedDoc kvs p now) := by
  simp only [applyUpdateFields, pyContains, pyGetItem, any_key_isSome, mergedDoc]
  cases hn : getEntry p "name" <;> cases hd : getEntry p "data" <;>
    simp [hn, hd, Except.map]

theorem mergedDoc_modified (kvs p : List (String × Json)) (now : String) :
    getEntry (mergedDoc kvs p now) "modified" = some (.str now) := by
  simp only [mergedDoc]
  cases hn : getEntry p "name" <;> cases hd : getEntry p "data" <;>
    simp only [] <;>
    first
      | exact getEntry_setEntry_self _ _ _
      | (rw [getEntry_setEntry_ne (by decide)]
         first
           | exact getEntry_setEntry_self _ _ _
           | (rw [getEntry_setEntry_ne (by decide)]
              exact getEntry_setEntry_self _ _ _))

theorem mergedDoc_name_some {p : List (String × Json)} {v : Json}
    (hn : getEntry p "name" = some v) (kvs : List (String × Json)) (now : String) :
    getEntry (mergedDoc kvs p now) "name" = some v := by
  simp only [mergedDoc, hn]
  cases hd : getEntry p "data" <;> simp only []
  · exact getEntry_setEntry_self _ _ _
  · rw [getEntry_setEntry_ne (by decide)]
    exact getEntry_setEntry_self _ _ _

theorem mergedDoc_name_none {p : List (String × Json)}
    (hn : getEntry p "name" = none) (kvs : List (String × Json)) (now : String) :
    getEntry (mergedDoc kvs p now) "name" = getEntry kvs "name" := by
  simp only [mergedDoc, hn]
  cases hd : getEntry p "data" <;> simp only []
  · rw [getEntry_setEntry_ne (by decide)]
  · rw [getEntry_setEntry_ne (by decide), getEntry_setEntry_ne (by decide)]

theorem mergedDoc_data_some {p : List (String × Json)} {v : Json}
    (hd : getEntry p "data" = some v) (kvs : List (String × Json)) (now : String) :
    getEntry (mergedDoc kvs p now) "data" = some v := by
  simp only [mergedDoc, hd]
  cases hn : getEntry p "name" <;> simp only [] <;>
    exact getEntry_setEntry_self _ _ _

theorem mergedDoc_data_none {p : List (String × Json)}
    (hd : getEntry p "data" = none) (kvs : List (String × Json)) (now : String) :
    getEntry (mergedDoc kvs p now) "data" = getEntry kvs "data" := by
  simp only [mergedDoc, hd]
  cases hn : getEntry p "name" <;> simp only []
  · rw [getEntry_setEntry_ne (by decide)]
  · rw [getEntry_setEntry_ne (by decide), getEntry_setEntry_ne (by decide)]

theorem mergedDoc_frame (kvs p : List (String × Json)) (now : String)
    {k : String} (h1 : k ≠ "modified") (h2 : k ≠ "name") (h3 : k ≠ "data") :
    getEntry (mergedDoc kvs p now) k = getEntry kvs k := by
  simp only [mergedDoc]
  cases hn : getEntry p "name" <;> cases hd : getEntry p "data" <;> simp only []
  · rw [getEntry_setEntry_ne h1]
  · rw [getEntry_setEntry_ne h3, getEntry_setEntry_ne h1]
  · rw [getEntry_setEntry_ne h2, getEntry_setEntry_ne h1]
  · rw [getEntry_setEntry_ne h3, getEntry_setEntry_ne h2, getEntry_setEntry_ne h1]

/-- C6: Update on an existing document with a dict payload is a merge-update:
the response is 200 with the new modified stamp; the stored dict gets
modified = now, name overwritten only when the payload has a name field, data
overwritten only when it has a data field, and every other stored field
(id, created, anything else) unchanged; the pointer file is untouched. -/
theorem update_file_merge (s : ServerState) (fileId now : String)
    (kvs p : List (String × Json))
    (hf : getEntry s.files fileId = some (.json (.obj kvs))) :
    ∃ kvs',
      update_file fileId (.valid (.obj p)) now s =
        ({status := 200, body := .obj [("success", .bool true), ("modified", .str now)]},
         ⟨setEntry s.files fileId (.json (.obj kvs')), s.metadata⟩) ∧
      getEntry kvs' "modified" = some (.str now) ∧
      (∀ v, getEntry p "name" = some v → getEntry kvs' "name" = some v) ∧
      (getEntry p "name" = none → getEntry kvs' "name" = getEntry kvs "name") ∧
      (∀ v, getEntry p "data" = some v → getEntry kvs' "data" = some v) ∧
      (getEntry p "data" = none → getEntry kvs' "data" = getEntry kvs "data") ∧
      (∀ k, k ≠ "modified" → k ≠ "name" → k ≠ "data" →
        getEntry kvs' k = getEntry kvs k) := by
  refine ⟨mergedDoc kvs p now, ?_, mergedDoc_modified kvs p now, ?_, ?_, ?_, ?_, ?_⟩
  · simp [update_file, hf, applyUpdateFields_obj]
  · intro v hv; exact mergedDoc_name_some hv kvs now
  · intro hv; exact mergedDoc_name_none hv kvs now
  · intro v hv; exact mergedDoc_data_some hv kvs now
  · intro hv; exact mergedDoc_data_none hv kvs now
  · intro k h1 h2 h3; exact mergedDoc_frame kvs p now h1 h2 h3

/-- C6 witness: renaming a concrete stored document changes only name and
modified; the 200 response carries the new modified stamp. -/
theorem update_file_merge_witness :
    (update_file "x" (.valid (.obj [("name", Json.str "X")])) "T2"
      ⟨[("x", .json (.obj [("id", Json.str "x"), ("name", Json.str "A"),
          ("created", Json.str "T1"), ("modified", Json.str "T1"),
          ("data", Json.num 7)]))], none⟩).1 =
      {status := 200, body := .obj [("success", .bool true), ("modified", .str "T2")]} := by
  obtain ⟨kvs', heq, _⟩ :=
    update_file_merge
      ⟨[("x", .json (.obj [("id", Json.str "x"), ("name", Json.str "A"),
          ("created", Json.str "T1"), ("modified", Json.str "T1"),
          ("data", Json.num 7)]))], none⟩ "x" "T2"
      [("id", Json.str "x"), ("name", Json.str "A"), ("created", Json.str "T1"),
       ("modified", Json.str "T1"), ("data", Json.num 7)]
      [("name", Json.str "X")] rfl
  rw [heq]

/-- C2 (amended): provided the pointer file read yields a value (absent,
unparseable, or a JSON object) and every stored file is unparseable or a
well-formed document, DELETE behaves as claimed: 404 for a missing id; for an
existing id the file is removed and the response is 200 {success: true}; the
pointer file is untouched when the captured pointer id differs from the
deleted id, and otherwise is re-pointed at the most-recently-modified
remaining listed document, or removed entirely when none remain.  (A pointer
file parsing to a non-object instead aborts the route with a 500 before
deleting — see the counterexample.) -/
theorem delete_route_props (s : ServerState) (fileId now : String) (rid : Json)
    (hr : FileManager.get_recent_file_id s.metadata = .ok rid)
    (hw : ∀ p ∈ s.files, wfDocFile p.1 p.2 = true) :
    (getEntry s.files fileId = none →
      delete_file fileId now s = ({status := 404, body := errBody "File not found"}, s)) ∧
    (∀ c, getEntry s.files fileId = some c →
      (delete_file fileId now s).1 = {status := 200, body := successBody} ∧
      (delete_file fileId now s).2.files = removeFile s.files fileId ∧
      (pyEqStr rid fileId = false →
        (delete_file fileId now s).2.metadata = s.metadata) ∧
      (pyEqStr rid fileId = true →
        (FileManager.get_all_files (removeFile s.files fileId) = .ok [] →
          (delete_file fileId now s).2.metadata = none) ∧
        (∀ e es, FileManager.get_all_files (removeFile s.files fileId) = .ok (e :: es) →
          (delete_file fileId now s).2.metadata =
            some (.json (FileManager.mkMeta e.id now)) ∧
          (∀ x ∈ e :: es, pyLt e.modified x.modified = .ok false)))) := by
  constructor
  · intro h
    simp [delete_file, h]
  · intro c hc
    obtain ⟨out, hout, hperm, hpair, hstr⟩ :=
      @get_all_files_props (removeFile s.files fileId)
        (fun p hp => wfDocFile_good (hw p (mem_removeFile hp)))
    cases hb : pyEqStr rid fileId with
    | false =>
      refine ⟨?_, ?_, fun _ => ?_, fun habs => absurd habs (by simp [hb])⟩ <;>
        simp [delete_file, hc, hr, hb]
    | true =>
      refine ⟨?_, ?_, fun habs => absurd habs (by simp [hb]), fun _ => ?_⟩
      · cases out with
        | nil => simp [delete_file, hc, hr, hb, hout]
        | cons e0 es0 => simp [delete_file, hc, hr, hb, hout]
      · cases out with
        | nil => simp [delete_file, hc, hr, hb, hout]
        | cons e0 es0 => simp [delete_file, hc, hr, hb, hout]
      · constructor
        · intro hnil
          rw [hout] at hnil
          cases hnil
          simp [delete_file, hc, hr, hb, hout]
        · intro e es heq
          rw [hout] at heq
          cases heq
          constructor
          · simp [delete_file, hc, hr, hb, hout, FileManager.update_recent_file]
          · exact pairwise_head_max hpair (hstr _ (List.mem_cons_self _ _))
    -- end

/-- C2 counterexample: with an existing document and a pointer file parsing
to a JSON number, DELETE returns 500 — and does not even delete the file —
instead of the claimed {success: true} 200. -/
theorem delete_pointer_corrupt_500 :
    delete_file "a" "T"
      ⟨[("a", .json (.obj [("id", Json.str "a")]))], some (.json (.num 3))⟩ =
      ({status := 500, body := errBody "AttributeError: value has no attribute get"},
       ⟨[("a", .json (.obj [("id", Json.str "a")]))], some (.json (.num 3))⟩) := rfl

/-- C2 witness: deleting the pointed-at document of a two-document store
returns 200 {success: true} (with the pointer re-targeted by the cascade). -/
theorem delete_route_props_witness :
    (delete_file "a" "T5"
      ⟨[("a", FileContent.json (.obj [("id", Json.str "a"), ("name", Json.str "A"),
          ("modified", Json.str "2024-01-01")])),
        ("b", FileContent.json (.obj [("id", Json.str "b"), ("name", Json.str "B"),
          ("modified", Json.str "2024-02-01")]))],
       some (.json (FileManager.mkMeta (.str "a") "T0"))⟩).1 =
      {status := 200, body := successBody} :=
  ((delete_route_props
      ⟨[("a", FileContent.json (.obj [("id", Json.str "a"), ("name", Json.str "A"),
          ("modified", Json.str "2024-01-01")])),
        ("b", FileContent.json (.obj [("id", Json.str "b"), ("name", Json.str "B"),
          ("modified", Json.str "2024-02-01")]))],
       some (.json (FileManager.mkMeta (.str "a") "T0"))⟩ "a" "T5" (.str "a")
      rfl (by decide)).2
    (FileContent.json (.obj [("id", Json.str "a"), ("name", Json.str "A"),
      ("modified", Json.str "2024-01-01")])) rfl).1

/-- C1 (amended): provided the pointer file read yields a value (absent,
unparseable, or a JSON object) and every stored file is unparseable or a
well-formed document, GET /api/recent always returns 200 with a recentFileId
whose document file exists after the call: a truthy stored pointer id naming
an existing file is returned unchanged without rewriting the pointer;
otherwise, when listed documents exist, the most-recently-modified one's id
is returned and the pointer set to it; otherwise a document named
"My First Spreadsheet" is created under the fresh id, the pointer is set to
it, and that id is returned.  (A pointer file parsing to a non-object JSON
value instead yields a 500 — see the counterexample.) -/
theorem recent_route_props (s : ServerState) (freshId now : String) (rid : Json)
    (hr : FileManager.get_recent_file_id s.metadata = .ok rid)
    (hw : ∀ p ∈ s.files, wfDocFile p.1 p.2 = true) :
    (get_recent_file freshId now s).1.status = 200 ∧
    ((pyTruthy rid && (getEntry s.files (pyStr rid)).isSome) = true →
      get_recent_file freshId now s =
        ({status := 200, body := .obj [("recentFileId", rid)]}, s)) ∧
    ((pyTruthy rid && (getEntry s.files (pyStr rid)).isSome) = false →
      (∀ e es, FileManager.get_all_files s.files = .ok (e :: es) →
        get_recent_file freshId now s =
          ({status := 200, body := .obj [("recentFileId", e.id)]},
           ⟨s.files, some (.json (FileManager.mkMeta e.id now))⟩) ∧
        (∀ x ∈ e :: es, pyLt e.modified x.modified = .ok false) ∧
        (∃ fid, e.id = .str fid ∧ (getEntry s.files fid).isSome = true)) ∧
      (FileManager.get_all_files s.files = .ok [] →
        get_recent_file freshId now s =
          ({status := 200, body := .obj [("recentFileId", .str freshId)]},
           ⟨setEntry s.files freshId
              (.json (FileManager.newDocJson (.str "My First Spreadsheet") freshId now)),
            some (.json (FileManager.mkMeta (.str freshId) now))⟩))) := by
  obtain ⟨out, hout, hperm, hpair, hstr⟩ :=
    get_all_files_props (fun p hp => wfDocFile_good (hw p hp))
  cases hb : (pyTruthy rid && (getEntry s.files (pyStr rid)).isSome) with
  | true =>
    refine ⟨?_, fun _ => ?_, fun habs => absurd habs (by simp [hb])⟩ <;>
      simp [get_recent_file, hr, hb]
  | false =>
    refine ⟨?_, fun habs => absurd habs (by simp [hb]), fun _ => ⟨?_, ?_⟩⟩
    · cases out with
      | nil => simp [get_recent_file, hr, hb, hout]
      | cons e0 es0 => simp [get_recent_file, hr, hb, hout]
    · intro e es heq
      rw [hout] at heq
      cases heq
      refine ⟨?_, ?_, ?_⟩
      · simp [get_recent_file, hr, hb, hout, FileManager.update_recent_file]
      · exact pairwise_head_max hpair (hstr _ (List.mem_cons_self _ _))
      · have hmem : e ∈ List.filterMap entryOfFile s.files :=
          hperm.mem_iff.mp (List.mem_cons_self _ _)
        obtain ⟨p, hpmem, hpe⟩ := List.mem_filterMap.mp hmem
        refine ⟨p.1, wfDocFile_entry (hw p hpmem) hpe, ?_⟩
        exact mem_getEntry_isSome (by rw [Prod.mk.eta]; exact hpmem)
    · intro heq
      rw [hout] at heq
      cases heq
      simp [get_recent_file, hr, hb, hout, FileManager.create_file,
        FileManager.update_recent_file]

/-- C1 counterexample: with an empty document store and a pointer file whose
JSON is an array, metadata.get raises AttributeError and GET /api/recent
returns 500, not the claimed 200. -/
theorem recent_pointer_non_object_500 :
    get_recent_file "f1" "T1" ⟨[], some (.json (.arr []))⟩ =
      ({status := 500, body := errBody "AttributeError: value has no attribute get"},
       ⟨[], some (.json (.arr []))⟩) := rfl

/-- C1 witness: with one well-formed document and a stale pointer, the route
returns 200. -/
theorem recent_route_props_witness :
    (get_recent_file "n1" "T1"
      ⟨[("a", FileContent.json (.obj [("id", Json.str "a"), ("name", Json.str "A"),
          ("modified", Json.str "2024-01-01")]))],
       some (.json (FileManager.mkMeta (.str "z") "T0"))⟩).1.status = 200 :=
  (recent_route_props
    ⟨[("a", FileContent.json (.obj [("id", Json.str "a"), ("name", Json.str "A"),
        ("modified", Json.str "2024-01-01")]))],
     some (.json (FileManager.mkMeta (.str "z") "T0"))⟩ "n1" "T1" (.str "z")
    rfl (by decide)).1

theorem strLe_refl (s : String) : strLe s s = true := by
  simp [strLe, strLt_irrefl]

/-- One state-changing API call of the Create/Update fragment: POST /api/files
or PUT /api/files/<id>, with its request body and the utcnow timestamp (and
generated uuid for create) observed during the call. -/
inductive Op where
  | createOp (body : ReqBody) (freshId ts : String) : Op
  | updateOp (fileId : String) (body : ReqBody) (ts : String) : Op

/-- The utcnow timestamp observed by an operation. -/
def Op.ts : Op → String
  | .createOp _ _ t => t
  | .updateOp _ _ t => t

/-- Run one operation against the server state, keeping the resulting state. -/
def applyOp (s : ServerState) : Op → ServerState
  | .createOp b f t => (create_file_route b f t s).2
  | .updateOp fid b t => (update_file fid b t s).2

/-- Run a sequence of operations in order. -/
def runOps : List Op → ServerState → ServerState
  | [], s => s
  | op :: rest, s => runOps rest (applyOp s op)

/-- Every stored document object carries string created/modified stamps with
created ≤ modified ≤ t. -/
abbrev DocBound (t : String) (d : FsDir) : Prop :=
  ∀ fid kvs, (fid, FileContent.json (.obj kvs)) ∈ d →
    ∃ c m, getEntry kvs "created" = some (.str c) ∧
      getEntry kvs "modified" = some (.str m) ∧
      strLe c m = true ∧ strLe m t = true

theorem DocBound.mono {t t' : String} {d : FsDir} (h : DocBound t d)
    (hle : strLe t t' = true) : DocBound t' d := by
  intro fid kvs hm
  obtain ⟨c, m, h1, h2, h3, h4⟩ := h fid kvs hm
  exact ⟨c, m, h1, h2, h3, strLe_trans h4 hle⟩

theorem applyUpdateFields_lookups {kvs : List (String × Json)} {j : Json}
    {now : String} {kvs' : List (String × Json)}
    (h : applyUpdateFields kvs j now = .ok kvs') :
    getEntry kvs' "modified" = some (.str now) ∧
    (∀ k, k ≠ "modified" → k ≠ "name" → k ≠ "data" →
      getEntry kvs' k = getEntry kvs k) := by
  cases hcn : pyContains j "name" with
  | error e => simp [applyUpdateFields, hcn] at h
  | ok hn =>
    cases hn with
    | false =>
      cases hcd : pyContains j "data" with
      | error e => simp [applyUpdateFields, hcn, hcd] at h
      | ok hd =>
        cases hd with
        | false =>
          simp only [applyUpdateFields, hcn, hcd, Bool.false_eq_true, if_false,
            Except.ok.injEq] at h
          rw [← h]
          refine ⟨getEntry_setEntry_self _ _ _, ?_⟩
          intro k h1 _ _
          exact getEntry_setEntry_ne h1 _ _
        | true =>
          cases hgd : pyGetItem j "data" with
          | error e => simp [applyUpdateFields, hcn, hcd, hgd, Except.map] at h
          | ok v =>
            simp only [applyUpdateFields, hcn, hcd, hgd, Bool.false_eq_true, if_false,
              if_true, Except.map, Except.ok.injEq] at h
            rw [← h]
            refine ⟨?_, ?_⟩
            · rw [getEntry_setEntry_ne (by decide)]
              exact getEntry_setEntry_self _ _ _
            · intro k h1 _ h3
              rw [getEntry_setEntry_ne h3, getEntry_setEntry_ne h1]
    | true =>
      cases hgn : pyGetItem j "name" with
      | error e => simp [applyUpdateFields, hcn, hgn, Except.map] at h
      | ok v =>
        cases hcd : pyContains j "data" with
        | error e => simp [applyUpdateFields, hcn, hgn, hcd, Except.map] at h
        | ok hd =>
          cases hd with
          | false =>
            simp only [applyUpdateFields, hcn, hgn, hcd, Bool.false_eq_true, if_false,
              if_true, Except.map, Except.ok.injEq] at h
            rw [← h]
            refine ⟨?_, ?_⟩
            · rw [getEntry_setEntry_ne (by decide)]
              exact getEntry_setEntry_self _ _ _
            · intro k h1 h2 _
              rw [getEntry_setEntry_ne h2, getEntry_setEntry_ne h1]
          | true =>
            cases hgd : pyGetItem j "data" with
            | error e => simp [applyUpdateFields, hcn, hgn, hcd, hgd, Except.map] at h
            | ok w =>
              simp only [applyUpdateFields, hcn, hgn, hcd, hgd, if_true,
                Except.map, Except.ok.injEq] at h
              rw [← h]
              refine ⟨?_, ?_⟩
              · rw [getEntry_setEntry_ne (by decide), getEntry_setEntry_ne (by decide)]
                exact getEntry_setEntry_self _ _ _
              · intro k h1 h2 h3
                rw [getEntry_setEntry_ne h3, getEntry_setEntry_ne h2,
                  getEntry_setEntry_ne h1]

theorem create_route_files (b : ReqBody) (f t' : String) (s : ServerState) :
    ((create_file_route b f t' s).2).files = s.files ∨
    ∃ name, ((create_file_route b f t' s).2).files =
      setEntry s.files f (.json (FileManager.newDocJson name f t')) := by
  cases b with
  | malformed => exact Or.inl rfl
  | valid j =>
    simp only [create_file_route]
    rcases hD : (if pyTruthy j then j else Json.obj []) with _ | _ | _ | _ | _ | kvs
    · exact Or.inl rfl
    · exact Or.inl rfl
    · exact Or.inl rfl
    · exact Or.inl rfl
    · exact Or.inl rfl
    · exact Or.inr ⟨(getEntry kvs "name").getD (.str "Untitled Spreadsheet"),
        by simp [FileManager.create_file]⟩

theorem create_step {s : ServerState} {t t' : String} (hb : DocBound t s.files)
    (hle : strLe t t' = true) (b : ReqBody) (f : String) :
    DocBound t' ((create_file_route b f t' s).2).files := by
  rcases create_route_files b f t' s with heq | ⟨name, heq⟩
  · rw [heq]; exact hb.mono hle
  · rw [heq]
    intro fid kvs hm
    rcases mem_setEntry hm with h1 | h1
    · have hkvs : kvs = [("id", Json.str f), ("name", name), ("created", Json.str t'),
          ("modified", Json.str t'), ("data", FileManager.defaultData)] := by
        simp [FileManager.newDocJson, Prod.ext_iff] at h1
        exact h1.2
      subst hkvs
      exact ⟨t', t', by simp [getEntry], by simp [getEntry], strLe_refl t', strLe_refl t'⟩
    · exact hb.mono hle fid kvs h1

theorem update_step {s : ServerState} {t t' : String} (hb : DocBound t s.files)
    (hle : strLe t t' = true) (fid : String) (b : ReqBody) :
    DocBound t' ((update_file fid b t' s).2).files := by
  cases hc : getEntry s.files fid with
  | none => simp only [update_file, hc]; exact hb.mono hle
  | some c =>
    cases c with
    | invalid => simp only [update_file, hc]; exact hb.mono hle
    | json fd =>
      cases b with
      | malformed => simp only [update_file, hc]; exact hb.mono hle
      | valid j =>
        cases fd with
        | obj kvs =>
          cases ha : applyUpdateFields kvs j t' with
          | error e => simp only [update_file, hc, ha]; exact hb.mono hle
          | ok kvs' =>
            simp only [update_file, hc, ha]
            intro f2 kk hm
            rcases mem_setEntry hm with h1 | h1
            · obtain ⟨hmod, hframe⟩ := applyUpdateFields_lookups ha
              have hkk : kk = kvs' := by
                simp [Prod.ext_iff] at h1
                exact h1.2
              subst hkk
              obtain ⟨c0, m0, hcr, hmd, hcm, hmt⟩ := hb fid kvs (getEntry_some_mem hc)
              refine ⟨c0, t', ?_, hmod, ?_, strLe_refl t'⟩
              · rw [hframe "created" (by decide) (by decide) (by decide)]
                exact hcr
              · exact strLe_trans hcm (strLe_trans hmt hle)
            · exact hb.mono hle f2 kk h1
        | null => simp only [update_file, hc]; exact hb.mono hle
        | bool bb => simp only [update_file, hc]; exact hb.mono hle
        | num n => simp only [update_file, hc]; exact hb.mono hle
        | str ss => simp only [update_file, hc]; exact hb.mono hle
        | arr l => simp only [update_file, hc]; exact hb.mono hle

theorem runOps_bound :
    ∀ {ops : List Op} {s : ServerState} {t : String},
      DocBound t s.files → (∀ op ∈ ops, strLe t op.ts = true) →
      ops.Pairwise (fun a b => strLe a.ts b.ts = true) →
      ∃ t', DocBound t' ((runOps ops s).files) := by
  intro ops
  induction ops with
  | nil => intro s t hb _ _; exact ⟨t, hb⟩
  | cons op rest ih =>
    intro s t hb hall hpw
    have hle : strLe t op.ts = true := hall op (List.mem_cons_self _ _)
    have hstep : DocBound op.ts ((applyOp s op).files) := by
      cases op with
      | createOp b f ts => exact create_step hb hle b f
      | updateOp fid b ts => exact update_step hb hle fid b
    exact ih hstep (List.pairwise_cons.mp hpw).1 (List.pairwise_cons.mp hpw).2

/-- C9: starting from an empty store, after any sequence of POST-create and
PUT-update calls whose observed clock readings are monotone, every stored
document object satisfies modified ≥ created (as the ISO timestamp strings
the code compares): create stamps both with the same timestamp and update
moves only modified, never created. -/
theorem modified_ge_created (ops : List Op)
    (hmono : ops.Pairwise (fun a b => strLe a.ts b.ts = true)) :
    ∀ fid kvs, (fid, FileContent.json (.obj kvs)) ∈ (runOps ops ⟨[], none⟩).files →
      ∃ c m, getEntry kvs "created" = some (.str c) ∧
        getEntry kvs "modified" = some (.str m) ∧ strLe c m = true := by
  cases ops with
  | nil => intro fid kvs hm; simp [runOps] at hm
  | cons op rest =>
    have h0 : DocBound op.ts (⟨[], none⟩ : ServerState).files := by
      intro fid kvs hm
      simp at hm
    have hall : ∀ op' ∈ op :: rest, strLe op.ts op'.ts = true := by
      intro op' h'
      rcases List.mem_cons.mp h' with h1 | h1
      · rw [h1]; exact strLe_refl _
      · exact (List.pairwise_cons.mp hmono).1 op' h1
    obtain ⟨t', hb⟩ := runOps_bound h0 hall hmono
    intro fid kvs hm
    obtain ⟨c, m, h1, h2, h3, _⟩ := hb fid kvs hm
    exact ⟨c, m, h1, h2, h3⟩

/-- C9 witness: a create followed by a later rename keeps created ≤ modified
for every stored document. -/
theorem modified_ge_created_witness :
    ([Op.createOp (.valid (.obj [])) "a" "2024-01-01T00:00:00Z",
      Op.updateOp "a" (.valid (.obj [("name", Json.str "B")])) "2024-01-02T00:00:00Z"].Pairwise
        (fun a b => strLe a.ts b.ts = true)) ∧
    (∀ fid kvs, (fid, FileContent.json (.obj kvs)) ∈
        (runOps [Op.createOp (.valid (.obj [])) "a" "2024-01-01T00:00:00Z",
          Op.updateOp "a" (.valid (.obj [("name", Json.str "B")])) "2024-01-02T00:00:00Z"]
          ⟨[], none⟩).files →
      ∃ c m, getEntry kvs "created" = some (.str c) ∧
        getEntry kvs "modified" = some (.str m) ∧ strLe c m = true) :=
  ⟨by decide, modified_ge_created _ (by decide)⟩


end VSheet
